import Mathlib
/-!
Shallow embedding of the embargo access-control check
(`common/djangoapps/embargo/api.py`) and of the course content-tree model
(`lms/djangoapps/course_api/v0/views.py`, `serializers.py`,
`common/lib/xmodule/xmodule/modulestore/models.py`,
`common/lib/xmodule/xmodule/modulestore/split_mongo/__init__.py`)
of the edx-platform repository, together with proofs about the claims of
the natural-language specification.
-/
set_option maxHeartbeats 1000000

namespace Embargo

/-- The external collaborators of `embargo/api.py`.  The repository's
`embargo/models.py` is not part of the sources under verification (only its
caller `api.py` is), so the four collaborator interfaces are modelled from
the spec, see the individual field comments.  GeoIP resolvers and
`unique_id_for_user` are external collaborators (pygeoip, student.models)
and stay abstract functions. -/
structure Env where
  /-- Modelled from the spec: `IPFilter.current().blacklist_ips`, the
  always-deny IP set (highest precedence). -/
  blacklist_ips : List String
  /-- Modelled from the spec: `IPFilter.current().whitelist_ips`, the
  always-allow IP set (second precedence, only consulted if not
  blacklisted). -/
  whitelist_ips : List String
  /-- `pygeoip.GeoIP(settings.GEOIP_PATH).country_code_by_addr`: the IPv4
  GeoIP resolver, an abstract external collaborator. -/
  geoip4 : String → String
  /-- `pygeoip.GeoIP(settings.GEOIPV6_PATH).country_code_by_addr`: the IPv6
  GeoIP resolver, an abstract external collaborator. -/
  geoip6 : String → String
  /-- Modelled from the spec: the per-course whitelist of allowed
  countries of `CountryAccessRule`; `none` means the course has no
  whitelist configured. -/
  course_whitelist : String → Option (List String)
  /-- Modelled from the spec: the per-course blacklist of denied
  countries of `CountryAccessRule`; `none` means the course has no
  blacklist configured. -/
  course_blacklist : String → Option (List String)
  /-- Modelled from the spec: `RestrictedCourse.is_restricted_course`,
  the per-course restricted flag. -/
  is_restricted_course : String → Bool
  /-- `getattr(settings, 'EMBARGO_SITE_REDIRECT_URL', None)`. -/
  redirect_url : Option String
  /-- `student.models.unique_id_for_user`, abstract external collaborator
  (only interpolated into log messages). -/
  unique_id_for_user : Nat → String

/-- Modelled from the spec:
`CountryAccessRule.is_course_embargoed_in_country_list(course_id, country, list_kind)`
(`embargo/models.py`, not among the sources).  Per the spec's country-list
rule — "block if the course has a whitelist of allowed countries and the
resolved country is NOT in it; otherwise block if the course has a
blacklist of denied countries and the resolved country IS in it; a course
with neither list configured is always allowed" — combined with the call
sites in `api.py` (which block on `not is_...(…, "whitelist")` and on
`is_...(…, "blacklist")`), the `"whitelist"` kind reports whether the
country passes the course's whitelist (vacuously true when no whitelist is
configured) and the `"blacklist"` kind reports whether the configured
blacklist contains the country (false when none is configured). -/
def is_course_embargoed_in_country_list (env : Env)
    (course_id country list_kind : String) : Bool :=
  if list_kind = "whitelist" then
    match env.course_whitelist course_id with
    | none => true
    | some w => w.contains country
  else if list_kind = "blacklist" then
    match env.course_blacklist course_id with
    | none => false
    | some b => b.contains country
  else
    false

/-- `_from_course_msg`. -/
def from_course_msg (course_id : String) (course_is_embargoed : Bool) : String :=
  if course_is_embargoed then "from course " ++ course_id else ""

/-- `REASONS["ip_blacklist"]`, formatted. -/
def reason_ip_blacklist (ip_addr from_course : String) : String :=
  "Restricting IP address " ++ ip_addr ++ " " ++ from_course ++
    " because IP is blacklisted."

/-- `REASONS["ip_country"]`, formatted. -/
def reason_ip_country (ip_addr ip_country from_course : String) : String :=
  "Restricting IP address " ++ ip_addr ++ " " ++ from_course ++
    " because IP is from country " ++ ip_country ++ "."

/-- `REASONS["profile_country"]`, formatted. -/
def reason_profile_country (user_id profile_country from_course : String) : String :=
  "Restricting user " ++ user_id ++ " " ++ from_course ++
    " because the user set the profile country to " ++ profile_country ++ "."

/-- `_country_code_from_ip`: selects the IPv6 database when the address
contains a colon (`ip_addr.find(':') >= 0`), the IPv4 one otherwise. -/
def country_code_from_ip (env : Env) (ip_addr : String) : String :=
  if ip_addr.contains ':' then env.geoip6 ip_addr else env.geoip4 ip_addr

/-- `_is_embargoed_by_ip`.  Returns the formatted reason message if the
user is embargoed, otherwise `none`.  Course ids are modelled as strings
whose Python truthiness (`if course_id and ...`) is non-emptiness. -/
def is_embargoed_by_ip (env : Env) (ip_addr : String)
    (course_id : String := "") (course_is_embargoed : Bool := false) :
    Option String :=
  -- If blacklisted, immediately fail
  if env.blacklist_ips.contains ip_addr then
    some (reason_ip_blacklist ip_addr (from_course_msg course_id course_is_embargoed))
  -- If we're white-listed, then allow access
  else if env.whitelist_ips.contains ip_addr then
    none
  else
    let ip_country := country_code_from_ip env ip_addr
    if course_id ≠ "" ∧
        ¬ is_course_embargoed_in_country_list env course_id ip_country "whitelist" then
      some (reason_ip_country ip_addr ip_country
        (from_course_msg course_id course_is_embargoed))
    else if course_id ≠ "" ∧
        is_course_embargoed_in_country_list env course_id ip_country "blacklist" then
      some (reason_ip_country ip_addr ip_country
        (from_course_msg course_id course_is_embargoed))
    else
      none

/-- `user.profile.country.code` (`None`-able). -/
structure Profile where
  country_code : Option String

/-- The Django user as consumed by `api.py`: an id and an optional
profile (`getattr(user, 'profile', None)`). -/
structure PUser where
  id : Nat
  profile : Option Profile

/-- The Django per-process cache, keyed by strings; `none` is a miss. -/
def Cache : Type := String → Option String

/-- `cache.set`. -/
def cache_set (c : Cache) (k v : String) : Cache :=
  fun k' => if k' = k then some v else c k'

/-- The cache key `u'user.{user_id}.profile.country'`. -/
def profile_cache_key (user_id : Nat) : String :=
  "user." ++ toString user_id ++ ".profile.country"

/-- Python's `unicode.upper()` on country codes, modelled as the
character-wise upper-casing of the string. -/
def str_upper (s : String) : String :=
  ⟨s.data.map Char.toUpper⟩

/-- `_is_embargoed_by_profile_country`.  Returns the reason (or `none`)
together with the cache after the call. -/
def is_embargoed_by_profile_country (env : Env) (c : Cache) (user : PUser)
    (course_id : String := "") (course_is_embargoed : Bool := false) :
    Option String × Cache :=
  let cache_key := profile_cache_key user.id
  let resolved : String × Cache :=
    match c cache_key with
    | some pc => (pc, c)
    | none =>
      let pc :=
        match user.profile with
        | some profile =>
          match profile.country_code with
          | some code => str_upper code
          | none => ""
        | none => ""
      (pc, cache_set c cache_key pc)
  let profile_country := resolved.1
  let c' := resolved.2
  let reason : Option String :=
    if course_id ≠ "" ∧
        ¬ is_course_embargoed_in_country_list env course_id profile_country "whitelist" then
      some (reason_profile_country (env.unique_id_for_user user.id) profile_country
        (from_course_msg course_id course_is_embargoed))
    else if course_id ≠ "" ∧
        is_course_embargoed_in_country_list env course_id profile_country "blacklist" then
      some (reason_profile_country (env.unique_id_for_user user.id) profile_country
        (from_course_msg course_id course_is_embargoed))
    else
      none
  (reason, c')

/-- An HTTP response as produced by the embargo layer. -/
inductive Response where
  | redirect (url : String)
  | forbidden (body : String)
deriving DecidableEq

/-- `_embargo_redirect_response`: a redirect to
`EMBARGO_SITE_REDIRECT_URL` when that setting is truthy (a non-empty
string), else `HttpResponseForbidden('Access Denied')`. -/
def embargo_redirect_response (env : Env) : Response :=
  match env.redirect_url with
  | some url => if url ≠ "" then .redirect url else .forbidden "Access Denied"
  | none => .forbidden "Access Denied"

/-- `check_access(user, ip_address, course_key)`.  Returns the blocking
response (`none` meaning the middleware continues, i.e. allow) together
with the cache after the call.  The two check functions run in order with
short-circuiting, exactly as the `for check_func in check_functions` loop
does; `_log_embargo_reason` only logs the reason message and converts it
to a boolean. -/
def check_access (env : Env) (c : Cache) (user : PUser) (ip_address : String)
    (course_key : String) : Option Response × Cache :=
  let course_is_restricted := env.is_restricted_course course_key
  if course_is_restricted then
    match is_embargoed_by_ip env ip_address course_key course_is_restricted with
    | some _ => (some (embargo_redirect_response env), c)
    | none =>
      let pr := is_embargoed_by_profile_country env c user course_key course_is_restricted
      match pr.1 with
      | some _ => (some (embargo_redirect_response env), pr.2)
      | none => (none, pr.2)
  else
    (none, c)

/-- The country resolved by the profile predicate: the cached value when
the per-user cache has one, otherwise the upper-cased profile country code
with the empty string as the "unknown" sentinel.  (This is the value the
body of `_is_embargoed_by_profile_country` computes before applying the
country rule.) -/
def resolved_profile_country (c : Cache) (user : PUser) : String :=
  match c (profile_cache_key user.id) with
  | some pc => pc
  | none =>
    match user.profile with
    | some profile =>
      match profile.country_code with
      | some code => str_upper code
      | none => ""
    | none => ""

/-- The blocking condition of the spec's country-list rule, relative to a
resolved country `country`: the course has a whitelist and the country is
not in it. -/
def whitelist_excludes (env : Env) (course country : String) : Prop :=
  match env.course_whitelist course with
  | some w => w.contains country = false
  | none => False

/-- The course has a blacklist and the country is in it. -/
def blacklist_includes (env : Env) (course country : String) : Prop :=
  match env.course_blacklist course with
  | some b => b.contains country = true
  | none => False

/-- The concrete environment used by the C3 witness: one blacklisted IP,
one restricted course, a configured redirect URL, no country lists. -/
def c3Env : Env :=
  { blacklist_ips := ["5.5.5.5"], whitelist_ips := [],
    geoip4 := fun _ => "US", geoip6 := fun _ => "US",
    course_whitelist := fun _ => none,
    course_blacklist := fun _ => none,
    is_restricted_course := fun k => k == "course-v1:Restricted",
    redirect_url := some "https://example.com/blocked",
    unique_id_for_user := fun _ => "u" }

/-- The concrete environment used by the C4 witness: a course whitelist
`["US"]` and no blacklist. -/
def c4Env : Env :=
  { blacklist_ips := [], whitelist_ips := [],
    geoip4 := fun _ => "FR", geoip6 := fun _ => "FR",
    course_whitelist := fun _ => some ["US"],
    course_blacklist := fun _ => none,
    is_restricted_course := fun _ => true,
    redirect_url := none, unique_id_for_user := fun _ => "u7" }

end Embargo

namespace CourseTree

/-- A dynamically-typed value as stored in the flat course-structure
dictionaries of `modulestore/models.py`: `null`, a string, a boolean, or a
list of block ids. -/
inductive BVal where
  | null
  | str (v : String)
  | bool (v : Bool)
  | ids (l : List String)
deriving DecidableEq

/-- Python truthiness of a `BVal` (`children or []`). -/
def BVal.truthy : BVal → Bool
  | .null => false
  | .str v => v ≠ ""
  | .bool v => v
  | .ids l => !l.isEmpty

/-- A string-keyed dictionary of `BVal`s, in insertion order. -/
def BDict : Type := List (String × BVal)

/-- `d[key]` as an `Option` (`none` is Python's `KeyError`). -/
def dGet (d : BDict) (k : String) : Option BVal :=
  match d with
  | [] => none
  | (k', v) :: rest => if k = k' then some v else dGet rest k

/-- `modulestore/models.py` `Block`: a course tree node.  The fields keep
the dynamic `BVal` typing of the Python attributes. -/
structure Block where
  id : BVal
  type : BVal
  children : BVal
  display_name : BVal
  format : BVal
  graded : BVal
deriving DecidableEq

/-- `Block.__init__`: stores the scalars as given and normalizes a falsy
`children` argument (`None`, `[]`, …) to the empty list
(`self.children = children or []`). -/
def Block.init (id type : BVal) (display_name : BVal := .null)
    (format : BVal := .null) (graded : BVal := .bool false)
    (children : BVal := .null) : Block :=
  { id, type,
    children := if children.truthy then children else .ids [],
    display_name, format, graded }

/-- `Block.from_dict`: reads the six mandatory keys with `d[u'…']`,
raising `KeyError` (modelled as `.error key`) when one is absent; key
accesses happen left-to-right in the order of the source call. -/
def Block.from_dict (d : BDict) : Except String Block := do
  let id ← (dGet d "id").elim (.error "id") .ok
  let block_type ← (dGet d "block_type").elim (.error "block_type") .ok
  let display_name ← (dGet d "display_name").elim (.error "display_name") .ok
  let format ← (dGet d "format").elim (.error "format") .ok
  let graded ← (dGet d "graded").elim (.error "graded") .ok
  let children ← (dGet d "children").elim (.error "children") .ok
  pure (Block.init id block_type display_name format graded children)

/-- The flat serialized course structure consumed by
`CourseStructure.from_dict`: a root id and a mapping from block id to
block dictionary. -/
structure FlatStructure where
  root : BVal
  blocks : List (String × BDict)

/-- `modulestore/models.py` `CourseStructure`: root id plus a mapping
from block id to `Block`.  The `copy.deepcopy` performed by `__init__` is
the identity on immutable values. -/
structure CourseStructure where
  root : BVal
  blocks : List (String × Block)
deriving DecidableEq

/-- `CourseStructure.from_dict`: builds each block with `Block.from_dict`
and keeps the root id.  A `KeyError` in any block propagates. -/
def CourseStructure.from_dict (d : FlatStructure) : Except String CourseStructure := do
  let blocks ← d.blocks.mapM (fun kb => (Block.from_dict kb.2).map (fun b => (kb.1, b)))
  pure { root := d.root, blocks }

/-- `block.__dict__` as used by `CourseStructureSerializer.get_blocks`:
the attribute mapping of a `Block`. -/
def Block.dict (b : Block) : BDict :=
  [("id", b.id), ("type", b.type), ("children", b.children),
   ("display_name", b.display_name), ("format", b.format), ("graded", b.graded)]

/-- `CourseStructureSerializer`: `root` is the structure's root
(`CharField(source='root')`) and `blocks` maps each block id to the
block's `__dict__`. -/
def CourseStructureSerializer (s : CourseStructure) : FlatStructure :=
  { root := s.root,
    blocks := s.blocks.map (fun kb => (kb.1, kb.2.dict)) }

/-- The concrete flat structure used by the C8 witness. -/
def c8Flat : FlatStructure :=
  { root := .str "course",
    blocks :=
      [("course",
        [("id", .str "course"), ("block_type", .str "course"),
         ("display_name", .str "Demo"), ("format", .null),
         ("graded", .bool false), ("children", .ids ["ch2", "ch1"])]),
       ("ch1",
        [("id", .str "ch1"), ("block_type", .str "chapter"),
         ("display_name", .null), ("format", .str "Homework"),
         ("graded", .bool true), ("children", .ids [])])] }

/-- The `CourseStructure` the C8 witness's flat structure converts to. -/
def c8CS : CourseStructure :=
  { root := .str "course",
    blocks :=
      [("course", Block.init (.str "course") (.str "course") (.str "Demo") .null
          (.bool false) (.ids ["ch2", "ch1"])),
       ("ch1", Block.init (.str "ch1") (.str "chapter") .null (.str "Homework")
          (.bool true) (.ids []))] }

end CourseTree

namespace SplitMongo

/-- `split_mongo/__init__.py` `EditInfo`: per-block provenance.  Field
values (version ids, timestamps, user ids) are kept abstract in the type
parameter; Python's `None` is `Option.none`. -/
structure EditInfo (α : Type) where
  previous_version : Option α
  update_version : Option α
  source_version : Option α
  edited_on : Option α
  edited_by : Option α
  original_usage : Option α
  original_usage_version : Option α
  subtree_edited_on : Option α
  subtree_edited_by : Option α
deriving DecidableEq

/-- The Mongo-storable mapping of an `EditInfo`: the five stored keys,
each read back with `edit_info.get(key, None)` so that an absent key and a
stored `None` coincide as `Option.none`. -/
structure EditInfoStorable (α : Type) where
  previous_version : Option α
  update_version : Option α
  source_version : Option α
  edited_on : Option α
  edited_by : Option α
deriving DecidableEq

/-- `EditInfo.from_storable` as invoked by `EditInfo.__init__`: the five
stored fields are taken from the mapping and `__init__` then resets
`original_usage`, `original_usage_version`, `_subtree_edited_on` and
`_subtree_edited_by` to `None`. -/
def EditInfo.init {α : Type} (edit_info : EditInfoStorable α) : EditInfo α :=
  { previous_version := edit_info.previous_version,
    update_version := edit_info.update_version,
    source_version := edit_info.source_version,
    edited_on := edit_info.edited_on,
    edited_by := edit_info.edited_by,
    original_usage := none,
    original_usage_version := none,
    subtree_edited_on := none,
    subtree_edited_by := none }

/-- `EditInfo.to_storable`: serializes exactly the five stored fields. -/
def EditInfo.to_storable {α : Type} (e : EditInfo α) : EditInfoStorable α :=
  { previous_version := e.previous_version,
    update_version := e.update_version,
    source_version := e.source_version,
    edited_on := e.edited_on,
    edited_by := e.edited_by }

/-- `split_mongo/__init__.py` `BlockData`: the block's field mapping,
type, definition reference, defaults and edit info, plus the
`definition_loaded` lazy-load marker. -/
structure BlockData (α : Type) where
  fields : List (String × α)
  block_type : Option α
  definition : Option α
  defaults : List (String × α)
  edit_info : EditInfo α
  definition_loaded : Bool
deriving DecidableEq

/-- The Mongo-storable mapping of a `BlockData`.  Every key is optional
(`stored.get(key, default)`); `definition_loaded` has no key here. -/
structure BlockDataStorable (α : Type) where
  fields : Option (List (String × α))
  block_type : Option α
  definition : Option α
  defaults : Option (List (String × α))
  edit_info : Option (EditInfoStorable α)
deriving DecidableEq

/-- `BlockData.from_storable` as a function of the preserved
`definition_loaded` slot (the method assigns every slot except that
one): missing `fields`/`defaults` default to `{}`, missing `block_type`/
`definition` to `None`, and `edit_info` is rebuilt with
`EditInfo(stored.get('edit_info', {}))`. -/
def BlockData.from_storable {α : Type} (definition_loaded : Bool)
    (stored : BlockDataStorable α) : BlockData α :=
  { fields := stored.fields.getD [],
    block_type := stored.block_type,
    definition := stored.definition,
    defaults := stored.defaults.getD [],
    edit_info := EditInfo.init (stored.edit_info.getD ⟨none, none, none, none, none⟩),
    definition_loaded }

/-- `BlockData.__init__`: sets `definition_loaded = False` and then
de-serializes from the given mapping. -/
def BlockData.init {α : Type} (block_dict : BlockDataStorable α) : BlockData α :=
  BlockData.from_storable false block_dict

/-- `BlockData.to_storable`: serializes `fields`, `block_type`,
`definition`, `defaults` and the nested `edit_info.to_storable()`;
`definition_loaded` is never emitted. -/
def BlockData.to_storable {α : Type} (b : BlockData α) : BlockDataStorable α :=
  { fields := some b.fields,
    block_type := b.block_type,
    definition := b.definition,
    defaults := some b.defaults,
    edit_info := some b.edit_info.to_storable }

/-- `split_mongo/__init__.py` `BlockKey`: the composite (type, id) key
indexing the flat block map; equality is structural. -/
structure BlockKey where
  type : String
  id : String
deriving DecidableEq

end SplitMongo

namespace GradedContent

open SplitMongo (BlockKey)

/-- A raw modulestore block as consumed by
`CourseGradedContent._filter_children` (`course_api/v0/views.py`): the
`block_type` attribute, the `fields['graded']` flag and the
`fields['children']` key list (absent children modelled as the empty
list, matching `fields.get('children', [])`).  The presentation-only
mutations of `_preserialize_block` (promoting `format`/`display_name`,
adding `category`/`location`) do not affect the traversal and are not
modelled. -/
structure MBlock where
  block_type : String
  graded : Bool
  children : List BlockKey
deriving DecidableEq

/-- `structure['blocks'][key]` (`none` is Python's `KeyError`). -/
def lookupBlock (blocks : List (BlockKey × MBlock)) (k : BlockKey) : Option MBlock :=
  match blocks with
  | [] => none
  | (k', b) :: rest => if k = k' then some b else lookupBlock rest k

/-- `CourseGradedContent._filter_children`, with the `kwargs` match
abstracted into the predicate `p` (the repository instantiates it with
`block_type == category`; an empty `kwargs` is the constantly-true
predicate).  A matching node is returned as a singleton without
descending; otherwise the source first resolves every child key through
`structure['blocks']` (its first `for` loop) and then concatenates the
recursive results in child order (its `problems += ...` loop), modelled
as the join of the mapped results.  The recursion through the flat block
map is bounded by `fuel`, which exceeds the recursion depth of any finite
acyclic structure; `none` models a `KeyError` on a dangling child key or
fuel exhaustion. -/
def filter_children (p : MBlock → Bool) (blocks : List (BlockKey × MBlock)) :
    Nat → MBlock → Option (List MBlock)
  | 0, _ => none
  | fuel + 1, node =>
    if p node then
      some [node]
    else
      let children := node.children
      if children.length = 0 then
        some []
      else
        match children.mapM (lookupBlock blocks) with
        | none => none
        | some resolved =>
          (resolved.mapM (filter_children p blocks fuel)).map List.join

/-- The demo block keys of the C7 scenario. -/
def kCourse : BlockKey := ⟨"course", "course"⟩

/-- Chapter key of the C7 scenario. -/
def kChapter : BlockKey := ⟨"chapter", "ch1"⟩

/-- Section key of the C7 scenario. -/
def kSection : BlockKey := ⟨"sequential", "seq1"⟩

/-- Problem key of the C7 scenario. -/
def kProblem : BlockKey := ⟨"problem", "p1"⟩

/-- The ungraded course root of the C7 scenario. -/
def demoRoot : MBlock := ⟨"course", false, [kChapter]⟩

/-- The graded chapter of the C7 scenario. -/
def demoChapter : MBlock := ⟨"chapter", true, [kSection]⟩

/-- The graded section inside the chapter of the C7 scenario. -/
def demoSection : MBlock := ⟨"sequential", true, [kProblem]⟩

/-- The ungraded problem inside the section of the C7 scenario. -/
def demoProblem : MBlock := ⟨"problem", false, []⟩

/-- The flat block map of the C7 scenario. -/
def demoBlocks : List (BlockKey × MBlock) :=
  [(kCourse, demoRoot), (kChapter, demoChapter),
   (kSection, demoSection), (kProblem, demoProblem)]

end GradedContent

namespace FetchTree

/-- The state of a content descriptor's `children` attribute:
`orig` — the original (untouched) value; `nullv` — `None`, assigned at the
depth cutoff; `mat` — a materialized list of child nodes. -/
inductive FAttr where
  | orig
  | nullv
  | mat
deriving DecidableEq

/-- The value-level model of a content descriptor as read and written by
`CourseContentMixin.fetch_children` (`course_api/v0/views.py`):
`hasChildren` is the descriptor's `has_children` capability flag, `kids`
is what `get_children()` returns, and the pair `attr`/`matKids` is the
current `children` attribute (`matKids` carries the materialized children
when `attr = .mat` and is empty otherwise). -/
inductive FNode where
  | mk (hasChildren : Bool) (kids : List FNode) (attr : FAttr) (matKids : List FNode)

/-- The `has_children` flag. -/
def FNode.hasChildren : FNode → Bool
  | .mk hc _ _ _ => hc

/-- The state of the `children` attribute. -/
def FNode.attr : FNode → FAttr
  | .mk _ _ a _ => a

mutual
/-- `CourseContentMixin.fetch_children(content_descriptor, depth)`,
value level: a node without `has_children` is returned as is; at
`depth == 0` the `children` attribute is set to `None`; otherwise it is
set to the recursively fetched children (`depth - 1`), in
`get_children()` order. -/
def fetch_children : FNode → Int → FNode
  | .mk hc kids attr mks, d =>
    if hc = false then .mk hc kids attr mks
    else if d = 0 then .mk hc kids .nullv []
    else .mk hc kids .mat (fetch_list kids (d - 1))
/-- The list comprehension
`[self.fetch_children(child, depth - 1) for child in ...get_children()]`. -/
def fetch_list : List FNode → Int → List FNode
  | [], _ => []
  | n :: rest, d => fetch_children n d :: fetch_list rest d
end

mutual
/-- The height of the real tree under a node: `0` for nodes without
`has_children`, else one more than the maximal child height. -/
def height : FNode → Nat
  | .mk hc kids _ _ => if hc = false then 0 else 1 + heightList kids
/-- Maximal height over a list of nodes. -/
def heightList : List FNode → Nat
  | [] => 0
  | n :: rest => max (height n) (heightList rest)
end

mutual
/-- How many levels of children have been materialized into `children`
attributes below (and including) a node. -/
def matHeight : FNode → Nat
  | .mk _ _ attr mks =>
    match attr with
    | .mat => 1 + matHeightList mks
    | _ => 0
/-- Maximal materialization depth over a list of nodes. -/
def matHeightList : List FNode → Nat
  | [] => 0
  | n :: rest => max (matHeight n) (matHeightList rest)
end

mutual
/-- A pristine tree: no node has been fetched yet (every `children`
attribute still holds its original value). -/
def pristine : FNode → Bool
  | .mk _ kids attr _ => (attr == .orig) && pristineList kids
/-- `pristine` over a list of nodes. -/
def pristineList : List FNode → Bool
  | [] => true
  | n :: rest => pristine n && pristineList rest
end

/-- A pristine leaf used by the C5 witness. -/
def demoLeaf : FNode := .mk false [] .orig []

/-- A pristine one-child inner node used by the C5 witness. -/
def demoMid : FNode := .mk true [demoLeaf] .orig []

/-- The pristine height-2 tree of the C5 witness. -/
def demoTree : FNode := .mk true [demoMid, demoLeaf] .orig []

end FetchTree

namespace FetchStore

/-- The `children` attribute of a stored descriptor object: the original
id list, the assigned `None`, or a materialized list of child objects
(heap addresses). -/
inductive CAttr where
  | ids (l : List Nat)
  | nullv
  | mat (l : List Nat)
deriving DecidableEq

/-- A content descriptor object on the heap: the `has_children`
capability flag, the addresses `get_children()` yields, and the current
`children` attribute. -/
structure NodeRec where
  hasChildren : Bool
  kids : List Nat
  children : CAttr
deriving DecidableEq

/-- The heap of descriptor objects, addressed by `Nat`. -/
def Store : Type := Nat → NodeRec

/-- Attribute assignment: replaces the object stored at one address. -/
def store_set (s : Store) (a : Nat) (n : NodeRec) : Store :=
  fun b => if b = a then n else s b

/-- `CourseContentMixin.fetch_children` at the heap level, exposing the
Python object semantics: `content_descriptor.children = …` assigns into
the existing object and the function returns the address it was given.
The list comprehension over `get_children()` threads the heap left to
right and collects the returned addresses.  `fuel` bounds the recursion
and exceeds the call depth on every finite acyclic heap; an exhausted
fuel returns the pair unchanged. -/
def fetch_children_store : Nat → Store → Nat → Int → Store × Nat
  | 0, s, a, _ => (s, a)
  | fuel + 1, s, a, d =>
    let n := s a
    if n.hasChildren = false then (s, a)
    else if d = 0 then (store_set s a { n with children := .nullv }, a)
    else
      let res := n.kids.foldl
        (fun acc k =>
          let r := fetch_children_store fuel acc.1 k (d - 1)
          (r.1, acc.2 ++ [r.2]))
        (s, ([] : List Nat))
      (store_set res.1 a { res.1 a with children := .mat res.2 }, a)

/-- The two-object heap of the C6 counterexample: address 0 is a node
with one child (address 1), its `children` attribute still the original
id list. -/
def exStore : Store := fun a =>
  if a = 0 then ⟨true, [1], .ids [1]⟩ else ⟨false, [], .ids []⟩

end FetchStore

namespace Embargo

/-- C1: for a restricted course (a truthy course id) and an IP that is
neither blacklisted nor whitelisted, the IP-based predicate blocks exactly
when the course's whitelist excludes the resolved country or — otherwise —
the course's blacklist includes it (whitelist-exclusion evaluated before
blacklist-inclusion), and a course with neither list configured never
blocks by this predicate. -/
theorem ip_predicate_country_rule (env : Env) (ip course : String) (ce : Bool)
    (hc : course ≠ "")
    (hb : ip ∉ env.blacklist_ips)
    (hw : ip ∉ env.whitelist_ips) :
    ((is_embargoed_by_ip env ip course ce).isSome = true ↔
      (whitelist_excludes env course (country_code_from_ip env ip) ∨
        (¬ whitelist_excludes env course (country_code_from_ip env ip) ∧
          blacklist_includes env course (country_code_from_ip env ip)))) ∧
    (env.course_whitelist course = none → env.course_blacklist course = none →
      is_embargoed_by_ip env ip course ce = none) := by
  constructor
  · unfold is_embargoed_by_ip is_course_embargoed_in_country_list
      whitelist_excludes blacklist_includes
    rcases hwl : env.course_whitelist course with _ | w <;>
      rcases hbl : env.course_blacklist course with _ | b <;>
        simp [hwl, hbl, hc, hb, hw] <;> split_ifs <;> simp_all
  · intro hwl hbl
    unfold is_embargoed_by_ip is_course_embargoed_in_country_list
    simp [hb, hw, hwl, hbl]

/-- Witness for C1 at a concrete environment: with a course whitelist
`["US"]` and the GeoIP resolver sending every address to `"FR"`, an
unlisted IP is blocked, and with no lists configured it is not. -/
theorem ip_predicate_country_rule_witness :
    (let env : Env :=
      { blacklist_ips := [], whitelist_ips := [],
        geoip4 := fun _ => "FR", geoip6 := fun _ => "FR",
        course_whitelist := fun _ => some ["US"],
        course_blacklist := fun _ => none,
        is_restricted_course := fun _ => true,
        redirect_url := none, unique_id_for_user := fun _ => "u" }
     (is_embargoed_by_ip env "1.2.3.4" "course-v1:Test" true).isSome = true) :=
  by
    have h := ip_predicate_country_rule
      { blacklist_ips := [], whitelist_ips := [],
        geoip4 := fun _ => "FR", geoip6 := fun _ => "FR",
        course_whitelist := fun _ => some ["US"],
        course_blacklist := fun _ => none,
        is_restricted_course := fun _ => true,
        redirect_url := none, unique_id_for_user := fun _ => "u" }
      "1.2.3.4" "course-v1:Test" true (by decide) (by simp) (by simp)
    exact h.1.mpr (Or.inl (by simp [whitelist_excludes, country_code_from_ip]))

/-- C2: a blacklisted IP is blocked by the IP-based predicate with the
"ip_blacklist" reason regardless of whitelist membership, country-list
configuration or resolved country (and `check_access` on a restricted
course blocks); an IP that is not blacklisted but whitelisted is allowed
by the predicate, with a result that does not depend on the GeoIP
resolvers or on the country lists at all. -/
theorem ip_blacklist_whitelist_precedence (env : Env) (c : Cache) (user : PUser)
    (ip course : String) (ce : Bool) :
    (ip ∈ env.blacklist_ips →
      is_embargoed_by_ip env ip course ce =
        some (reason_ip_blacklist ip (from_course_msg course ce)) ∧
      (env.is_restricted_course course = true →
        (check_access env c user ip course).1 =
          some (embargo_redirect_response env))) ∧
    (ip ∉ env.blacklist_ips → ip ∈ env.whitelist_ips →
      is_embargoed_by_ip env ip course ce = none ∧
      (∀ g4 g6 cw cb,
        is_embargoed_by_ip
          { env with geoip4 := g4, geoip6 := g6,
                     course_whitelist := cw, course_blacklist := cb }
          ip course ce = none)) := by
  constructor
  · intro hmem
    have h1 : is_embargoed_by_ip env ip course ce =
        some (reason_ip_blacklist ip (from_course_msg course ce)) := by
      unfold is_embargoed_by_ip
      simp [hmem]
    refine ⟨h1, fun hres => ?_⟩
    unfold check_access
    have h1' : is_embargoed_by_ip env ip course true =
        some (reason_ip_blacklist ip (from_course_msg course true)) := by
      unfold is_embargoed_by_ip
      simp [hmem]
    simp [hres, h1']
  · intro hb hw
    constructor
    · unfold is_embargoed_by_ip
      simp [hb, hw]
    · intro g4 g6 cw cb
      unfold is_embargoed_by_ip
      simp [hb, hw]

/-- Witness for C2: `"5.5.5.5"` on the blacklist is blocked with the
ip_blacklist reason even though every country check would allow it, and a
whitelisted IP is allowed. -/
theorem ip_blacklist_whitelist_precedence_witness :
    (let env : Env :=
      { blacklist_ips := ["5.5.5.5"], whitelist_ips := ["5.5.5.5", "6.6.6.6"],
        geoip4 := fun _ => "US", geoip6 := fun _ => "US",
        course_whitelist := fun _ => some ["US"],
        course_blacklist := fun _ => none,
        is_restricted_course := fun _ => true,
        redirect_url := some "https://example.com/blocked",
        unique_id_for_user := fun _ => "u" }
     is_embargoed_by_ip env "5.5.5.5" "course-v1:Test" true =
        some (reason_ip_blacklist "5.5.5.5" (from_course_msg "course-v1:Test" true)) ∧
     is_embargoed_by_ip env "6.6.6.6" "course-v1:Test" true = none) := by
  refine ⟨?_, ?_⟩
  · exact ((ip_blacklist_whitelist_precedence _ (fun _ => none) ⟨0, none⟩
      "5.5.5.5" "course-v1:Test" true).1 (by simp)).1
  · exact ((ip_blacklist_whitelist_precedence _ (fun _ => none) ⟨0, none⟩
      "6.6.6.6" "course-v1:Test" true).2 (by simp) (by simp)).1

/-- C3: `check_access` returns the allow result immediately (cache
untouched, all predicate-relevant state irrelevant) when the course is not
restricted; when it is restricted the IP predicate runs first and a block
there short-circuits (the profile predicate's cache effect does not
happen); a block produces the redirect response when a redirect URL is
configured and the forbidden response otherwise; when no predicate blocks
the result is allow. -/
theorem check_access_pipeline (env : Env) (c : Cache) (user : PUser)
    (ip course : String) :
    (env.is_restricted_course course = false →
      check_access env c user ip course = (none, c)) ∧
    (env.is_restricted_course course = true →
      (∀ r, is_embargoed_by_ip env ip course true = some r →
        check_access env c user ip course =
          (some (embargo_redirect_response env), c)) ∧
      (is_embargoed_by_ip env ip course true = none →
        (∀ r, (is_embargoed_by_profile_country env c user course true).1 = some r →
          check_access env c user ip course =
            (some (embargo_redirect_response env),
             (is_embargoed_by_profile_country env c user course true).2)) ∧
        ((is_embargoed_by_profile_country env c user course true).1 = none →
          check_access env c user ip course =
            (none, (is_embargoed_by_profile_country env c user course true).2)))) ∧
    (∀ url, url ≠ "" → env.redirect_url = some url →
      embargo_redirect_response env = .redirect url) ∧
    (env.redirect_url = none →
      embargo_redirect_response env = .forbidden "Access Denied") := by
  refine ⟨fun hres => ?_, fun hres => ⟨fun r hr => ?_, fun hip => ⟨fun r hr => ?_, fun hpr => ?_⟩⟩,
    fun url hne hurl => ?_, fun hurl => ?_⟩
  · unfold check_access
    simp [hres]
  · unfold check_access
    simp [hres, hr]
  · unfold check_access
    simp [hres, hip, hr]
  · unfold check_access
    simp [hres, hip, hpr]
  · unfold embargo_redirect_response
    simp [hurl, hne]
  · unfold embargo_redirect_response
    simp [hurl]

/-- Witness for C3: a concrete unrestricted course is allowed, and a
concrete restricted course with an IP-blocked request is redirected to the
configured URL. -/
theorem check_access_pipeline_witness :
    check_access c3Env (fun _ => none) ⟨0, none⟩ "5.5.5.5" "course-v1:Open" =
      (none, fun _ => none) ∧
    check_access c3Env (fun _ => none) ⟨0, none⟩ "5.5.5.5" "course-v1:Restricted" =
      (some (.redirect "https://example.com/blocked"), fun _ => none) := by
  constructor
  · exact (check_access_pipeline c3Env (fun _ => none) ⟨0, none⟩
      "5.5.5.5" "course-v1:Open").1 (by decide)
  · have h := ((check_access_pipeline c3Env (fun _ => none) ⟨0, none⟩
      "5.5.5.5" "course-v1:Restricted").2.1 (by decide)).1
      (reason_ip_blacklist "5.5.5.5" (from_course_msg "course-v1:Restricted" true))
      (by unfold is_embargoed_by_ip c3Env; simp)
    rw [h]
    have h2 := (check_access_pipeline c3Env (fun _ => none) ⟨0, none⟩
      "5.5.5.5" "course-v1:Restricted").2.2.1
      "https://example.com/blocked" (by decide) rfl
    rw [h2]

/-- Characterization of `_is_embargoed_by_profile_country`: the reason is
the country rule applied to the resolved profile country, and the cache is
unchanged on a hit and extended with the resolved country on a miss. -/
theorem is_embargoed_by_profile_country_eq (env : Env) (c : Cache) (user : PUser)
    (course : String) (ce : Bool) :
    is_embargoed_by_profile_country env c user course ce =
      ((if course ≠ "" ∧
            ¬ is_course_embargoed_in_country_list env course
                (resolved_profile_country c user) "whitelist" then
          some (reason_profile_country (env.unique_id_for_user user.id)
            (resolved_profile_country c user) (from_course_msg course ce))
        else if course ≠ "" ∧
            is_course_embargoed_in_country_list env course
                (resolved_profile_country c user) "blacklist" then
          some (reason_profile_country (env.unique_id_for_user user.id)
            (resolved_profile_country c user) (from_course_msg course ce))
        else
          none),
       (match c (profile_cache_key user.id) with
        | some _ => c
        | none =>
          cache_set c (profile_cache_key user.id)
            (resolved_profile_country c user))) := by
  unfold is_embargoed_by_profile_country resolved_profile_country
  rcases hck : c (profile_cache_key user.id) with _ | pc
  · rcases hp : user.profile with _ | p
    · simp [hck, hp]
    · rcases hcode : p.country_code with _ | code <;> simp [hck, hp, hcode]
  · simp [hck]

/-- `cache.set` followed by `cache.get` at the same key yields the value. -/
theorem cache_set_get_same (c : Cache) (k v : String) : cache_set c k v k = some v := by
  simp [cache_set]

/-- After caching a resolved country for a user id, any later resolution
for that user id returns the cached value, whatever the profile is. -/
theorem resolved_after_set (c : Cache) (uid : Nat) (R : String) (q : Option Profile) :
    resolved_profile_country (cache_set c (profile_cache_key uid) R) ⟨uid, q⟩ = R := by
  unfold resolved_profile_country
  dsimp only
  simp [cache_set]

/-- On a cache hit the resolution result does not depend on the profile. -/
theorem resolved_irrel (c : Cache) (user : PUser) (q : Option Profile) (pc : String)
    (hck : c (profile_cache_key user.id) = some pc) :
    resolved_profile_country c ⟨user.id, q⟩ = resolved_profile_country c user := by
  unfold resolved_profile_country
  dsimp only
  rw [hck]

/-- C4: the profile-country predicate resolves through the per-user-id
cache — on a miss it uses the upper-cased profile country code (or the
empty-string "unknown" sentinel) and stores it even when unknown, so that
a later call for the same user behaves as a cache hit, leaves the cache
unchanged and no longer depends on the profile — and applies the same
whitelist-then-blacklist country rule to the resolved profile country that
the IP predicate applies to the resolved IP country. -/
theorem profile_predicate_cache_and_rule (env : Env) (c : Cache) (user : PUser)
    (course : String) (ce : Bool) :
    (c (profile_cache_key user.id) = none →
      (is_embargoed_by_profile_country env c user course ce).2 =
        cache_set c (profile_cache_key user.id) (resolved_profile_country c user) ∧
      (∀ p code, user.profile = some p → p.country_code = some code →
        resolved_profile_country c user = str_upper code) ∧
      (user.profile = none → resolved_profile_country c user = "") ∧
      (∀ p, user.profile = some p → p.country_code = none →
        resolved_profile_country c user = "")) ∧
    (∀ v, c (profile_cache_key user.id) = some v →
      (is_embargoed_by_profile_country env c user course ce).2 = c ∧
      resolved_profile_country c user = v) ∧
    (∀ q, is_embargoed_by_profile_country env
        (is_embargoed_by_profile_country env c user course ce).2
        ⟨user.id, q⟩ course ce =
      ((is_embargoed_by_profile_country env c user course ce).1,
       (is_embargoed_by_profile_country env c user course ce).2)) ∧
    (course ≠ "" →
      ((is_embargoed_by_profile_country env c user course ce).1.isSome = true ↔
        (whitelist_excludes env course (resolved_profile_country c user) ∨
          (¬ whitelist_excludes env course (resolved_profile_country c user) ∧
            blacklist_includes env course (resolved_profile_country c user))))) ∧
    (∀ ip, ip ∉ env.blacklist_ips → ip ∉ env.whitelist_ips →
      country_code_from_ip env ip = resolved_profile_country c user →
      (is_embargoed_by_ip env ip course ce).isSome =
        (is_embargoed_by_profile_country env c user course ce).1.isSome) := by
  have hkey := is_embargoed_by_profile_country_eq env c user course ce
  refine ⟨fun hmiss => ?_, fun v hhit => ?_, fun q => ?_, fun hc => ?_, ?_⟩
  · refine ⟨by rw [hkey]; simp [hmiss], fun p code hp hcode => ?_, fun hp => ?_,
      fun p hp hcode => ?_⟩
    · unfold resolved_profile_country
      simp [hmiss, hp, hcode]
    · unfold resolved_profile_country
      simp [hmiss, hp]
    · unfold resolved_profile_country
      simp [hmiss, hp, hcode]
  · constructor
    · rw [hkey]; simp [hhit]
    · unfold resolved_profile_country
      rw [hhit]
  · rcases hck : c (profile_cache_key user.id) with _ | pc
    · have hfirst : (is_embargoed_by_profile_country env c user course ce).2 =
          cache_set c (profile_cache_key user.id) (resolved_profile_country c user) := by
        rw [hkey]; simp [hck]
      rw [hfirst, hkey]
      rw [is_embargoed_by_profile_country_eq env
        (cache_set c (profile_cache_key user.id) (resolved_profile_country c user))
        ⟨user.id, q⟩ course ce]
      rw [resolved_after_set]
      dsimp only
      rw [cache_set_get_same]
    · have hfirst : (is_embargoed_by_profile_country env c user course ce).2 = c := by
        rw [hkey]; simp [hck]
      rw [hfirst, hkey]
      rw [is_embargoed_by_profile_country_eq env c ⟨user.id, q⟩ course ce]
      rw [resolved_irrel c user q pc hck]
      dsimp only
      rw [hck]
  · rw [hkey]
    unfold is_course_embargoed_in_country_list whitelist_excludes blacklist_includes
    rcases hwl : env.course_whitelist course with _ | w <;>
      rcases hbl : env.course_blacklist course with _ | b <;>
        simp [hwl, hbl, hc] <;> split_ifs <;> simp_all
  · intro ip hb hw hco
    rw [hkey]
    unfold is_embargoed_by_ip
    rw [hco]
    simp only [hb, hw]
    simp [hb, hw]
    split_ifs <;> simp_all

/-- Witness for C4: a user whose profile country code is `"fr"` resolves,
on an empty cache, to the upper-cased `"FR"`, which is stored in the
cache, and the course whitelist `["US"]` blocks that profile country. -/
theorem profile_predicate_cache_and_rule_witness :
    (is_embargoed_by_profile_country c4Env (fun _ => none) ⟨7, some ⟨some "fr"⟩⟩
        "course-v1:Test" true).2 =
      cache_set (fun _ => none) (profile_cache_key 7)
        (resolved_profile_country (fun _ => none) ⟨7, some ⟨some "fr"⟩⟩) ∧
    resolved_profile_country (fun _ => none) ⟨7, some ⟨some "fr"⟩⟩ = "FR" ∧
    (is_embargoed_by_profile_country c4Env (fun _ => none) ⟨7, some ⟨some "fr"⟩⟩
        "course-v1:Test" true).1.isSome = true := by
  have h := profile_predicate_cache_and_rule c4Env (fun _ => none)
    ⟨7, some ⟨some "fr"⟩⟩ "course-v1:Test" true
  have ha := h.1 rfl
  have hfr : resolved_profile_country (fun _ => none) ⟨7, some ⟨some "fr"⟩⟩ = "FR" := by
    rw [ha.2.1 ⟨some "fr"⟩ "fr" rfl rfl]
    decide
  refine ⟨ha.1, hfr, ?_⟩
  refine (h.2.2.2.1 (by decide)).mpr (Or.inl ?_)
  rw [hfr]
  unfold whitelist_excludes c4Env
  decide

end Embargo

namespace CourseTree

/-- `Except` bind on an error short-circuits. -/
theorem except_bind_error {ε α β : Type} (e : ε) (f : α → Except ε β) :
    (Except.error e >>= f) = Except.error e := rfl

/-- `Except` bind on a success applies the continuation. -/
theorem except_bind_ok {ε α β : Type} (a : α) (f : α → Except ε β) :
    (Except.ok a >>= f) = f a := rfl

/-- C10: `Block.from_dict` succeeds exactly when all six keys (`id`,
`block_type`, `display_name`, `format`, `graded`, `children`) are present;
when it fails, the reported `KeyError` key is indeed absent from the
dictionary (a missing key is never defaulted); and a present key holding a
null value is accepted. -/
theorem block_from_dict_requires_all_keys (d : BDict) :
    ((∃ b, Block.from_dict d = .ok b) ↔
      (dGet d "id").isSome = true ∧ (dGet d "block_type").isSome = true ∧
      (dGet d "display_name").isSome = true ∧ (dGet d "format").isSome = true ∧
      (dGet d "graded").isSome = true ∧ (dGet d "children").isSome = true) ∧
    (∀ k, Block.from_dict d = .error k → dGet d k = none) ∧
    Block.from_dict
        [("id", .null), ("block_type", .null), ("display_name", .null),
         ("format", .null), ("graded", .null), ("children", .null)] =
      .ok (Block.init .null .null .null .null .null .null) := by
  refine ⟨?_, ?_, by rfl⟩
  · rcases h1 : dGet d "id" with _ | v1 <;>
      rcases h2 : dGet d "block_type" with _ | v2 <;>
        rcases h3 : dGet d "display_name" with _ | v3 <;>
          rcases h4 : dGet d "format" with _ | v4 <;>
            rcases h5 : dGet d "graded" with _ | v5 <;>
              rcases h6 : dGet d "children" with _ | v6 <;>
                simp [Block.from_dict, h1, h2, h3, h4, h5, h6,
                  except_bind_error, except_bind_ok]
  · intro k hk
    rcases h1 : dGet d "id" with _ | v1 <;>
      rcases h2 : dGet d "block_type" with _ | v2 <;>
        rcases h3 : dGet d "display_name" with _ | v3 <;>
          rcases h4 : dGet d "format" with _ | v4 <;>
            rcases h5 : dGet d "graded" with _ | v5 <;>
              rcases h6 : dGet d "children" with _ | v6 <;>
                simp [Block.from_dict, h1, h2, h3, h4, h5, h6,
                  except_bind_error, except_bind_ok] at hk <;>
                  simp [← hk, h1, h2, h3, h4, h5, h6]

/-- Witness for C10: a dictionary with every key but `children` makes
`Block.from_dict` raise on the missing `children` key, which is indeed
absent. -/
theorem block_from_dict_requires_all_keys_witness :
    dGet [("id", BVal.null), ("block_type", BVal.null), ("display_name", BVal.null),
          ("format", BVal.null), ("graded", BVal.null)] "children" = none :=
  (block_from_dict_requires_all_keys
    [("id", BVal.null), ("block_type", BVal.null), ("display_name", BVal.null),
     ("format", BVal.null), ("graded", BVal.null)]).2.1 "children" (by rfl)

/-- Eliminating a successful `Block.from_dict`: each scalar attribute of
the produced block is the dictionary's value at the corresponding key, and
a children-id list is taken over as is. -/
theorem block_from_dict_ok_elim (d : BDict) (b : Block)
    (h : Block.from_dict d = .ok b) :
    dGet d "id" = some b.id ∧ dGet d "block_type" = some b.type ∧
    dGet d "display_name" = some b.display_name ∧
    dGet d "format" = some b.format ∧ dGet d "graded" = some b.graded ∧
    (∀ l, dGet d "children" = some (.ids l) → b.children = .ids l) := by
  rcases h1 : dGet d "id" with _ | v1 <;>
    rcases h2 : dGet d "block_type" with _ | v2 <;>
      rcases h3 : dGet d "display_name" with _ | v3 <;>
        rcases h4 : dGet d "format" with _ | v4 <;>
          rcases h5 : dGet d "graded" with _ | v5 <;>
            rcases h6 : dGet d "children" with _ | v6 <;>
              simp [Block.from_dict, h1, h2, h3, h4, h5, h6,
                except_bind_error, except_bind_ok] at h
  subst h
  refine ⟨rfl, rfl, rfl, rfl, rfl, fun l hl => ?_⟩
  obtain rfl : v6 = .ids l := by simpa using hl
  rcases l with _ | ⟨x, xs⟩ <;> simp [Block.init, BVal.truthy]

/-- Eliminating a successful blocks `mapM` in `CourseStructure.from_dict`:
the per-entry keys are preserved in order and every input entry has a
corresponding successfully-converted block. -/
theorem from_dict_blocks_spec (l : List (String × BDict)) (bs : List (String × Block))
    (h : l.mapM (fun kb => (Block.from_dict kb.2).map (fun b => (kb.1, b))) = .ok bs) :
    bs.map Prod.fst = l.map Prod.fst ∧
    ∀ k bd, (k, bd) ∈ l → ∃ blk, (k, blk) ∈ bs ∧ Block.from_dict bd = .ok blk := by
  induction l generalizing bs with
  | nil =>
    simp only [List.mapM_nil, pure] at h
    cases h
    simp
  | cons kb rest ih =>
    rw [List.mapM_cons] at h
    rcases hb : Block.from_dict kb.2 with e | blk <;> rw [hb] at h
    · simp [Except.map, except_bind_error, pure] at h
    · rcases hr : rest.mapM (fun kb => (Block.from_dict kb.2).map (fun b => (kb.1, b)))
          with e' | bs' <;> rw [hr] at h
      · simp [Except.map, except_bind_ok, except_bind_error, pure] at h
      · simp only [Except.map, except_bind_ok, pure] at h
        cases h
        obtain ⟨hkeys, hmem⟩ := ih bs' hr
        constructor
        · simp [hkeys]
        · intro k bd hkbd
          rcases List.mem_cons.mp hkbd with heq | hmemr
          · exact ⟨blk, by simp [← heq], by rw [← heq] at hb; exact hb⟩
          · obtain ⟨blk', hblk'⟩ := hmem k bd hmemr
            exact ⟨blk', List.mem_cons_of_mem _ hblk'.1, hblk'.2⟩

/-- C8: building a `CourseStructure` from a flat mapping and re-serializing
it round-trips the root id, the list (hence set) of block ids, each
block's `type`/`display_name`/`format`/`graded` scalar values, and any
children-id list exactly (children are never reordered).  (The serializer
emits the `type` attribute under the key `"type"`; its value is the one
read from the input key `"block_type"`.) -/
theorem course_structure_roundtrip (d : FlatStructure) (cs : CourseStructure)
    (h : CourseStructure.from_dict d = .ok cs) :
    (CourseStructureSerializer cs).root = d.root ∧
    (CourseStructureSerializer cs).blocks.map Prod.fst = d.blocks.map Prod.fst ∧
    ∀ k bd, (k, bd) ∈ d.blocks → ∃ sb,
      (k, sb) ∈ (CourseStructureSerializer cs).blocks ∧
      dGet sb "type" = dGet bd "block_type" ∧
      dGet sb "display_name" = dGet bd "display_name" ∧
      dGet sb "format" = dGet bd "format" ∧
      dGet sb "graded" = dGet bd "graded" ∧
      (∀ l, dGet bd "children" = some (.ids l) → dGet sb "children" = some (.ids l)) := by
  have hblocks :
      d.blocks.mapM (fun kb => (Block.from_dict kb.2).map (fun b => (kb.1, b))) =
        .ok cs.blocks ∧ cs.root = d.root := by
    unfold CourseStructure.from_dict at h
    rcases hm : d.blocks.mapM (fun kb => (Block.from_dict kb.2).map (fun b => (kb.1, b)))
        with e | bs <;> rw [hm] at h
    · simp [except_bind_error] at h
    · simp only [except_bind_ok, pure] at h
      cases h
      exact ⟨hm, rfl⟩
  obtain ⟨hkeys, hmem⟩ := from_dict_blocks_spec d.blocks cs.blocks hblocks.1
  refine ⟨by simp [CourseStructureSerializer, hblocks.2], ?_, ?_⟩
  · simp only [CourseStructureSerializer]
    rw [← hkeys]
    simp [Function.comp]
  · intro k bd hkbd
    obtain ⟨blk, hblkmem, hblkok⟩ := hmem k bd hkbd
    obtain ⟨_hid, hty, hdn, hfmt, hgr, hch⟩ := block_from_dict_ok_elim bd blk hblkok
    refine ⟨blk.dict, ?_, ?_, ?_, ?_, ?_, ?_⟩
    · simp only [CourseStructureSerializer]
      exact List.mem_map.mpr ⟨(k, blk), hblkmem, rfl⟩
    · simp [Block.dict, dGet, hty]
    · simp [Block.dict, dGet, hdn]
    · simp [Block.dict, dGet, hfmt]
    · simp [Block.dict, dGet, hgr]
    · intro l hl
      have := hch l hl
      simp [Block.dict, dGet, this]

/-- Witness for C8: a concrete two-block flat structure round-trips its
root and block-id list. -/
theorem course_structure_roundtrip_witness :
    CourseStructure.from_dict c8Flat = .ok c8CS ∧
    (CourseStructureSerializer c8CS).root = .str "course" ∧
    (CourseStructureSerializer c8CS).blocks.map Prod.fst = ["course", "ch1"] := by
  have hok : CourseStructure.from_dict c8Flat = .ok c8CS := by rfl
  exact ⟨hok, (course_structure_roundtrip c8Flat c8CS hok).1.trans (by rfl),
    (course_structure_roundtrip c8Flat c8CS hok).2.1.trans (by rfl)⟩

end CourseTree

namespace SplitMongo

/-- C9: de-serializing `to_storable(b)` restores `fields`, `block_type`,
`definition`, `defaults` and the five stored `EditInfo` fields of `b`;
`definition_loaded` defaults to `false` on construction (for any stored
mapping) and never influences the storable mapping `to_storable`
produces. -/
theorem blockdata_storable_roundtrip {α : Type} (b : BlockData α) :
    (BlockData.init b.to_storable).fields = b.fields ∧
    (BlockData.init b.to_storable).block_type = b.block_type ∧
    (BlockData.init b.to_storable).definition = b.definition ∧
    (BlockData.init b.to_storable).defaults = b.defaults ∧
    (BlockData.init b.to_storable).edit_info.previous_version =
      b.edit_info.previous_version ∧
    (BlockData.init b.to_storable).edit_info.update_version =
      b.edit_info.update_version ∧
    (BlockData.init b.to_storable).edit_info.source_version =
      b.edit_info.source_version ∧
    (BlockData.init b.to_storable).edit_info.edited_on = b.edit_info.edited_on ∧
    (BlockData.init b.to_storable).edit_info.edited_by = b.edit_info.edited_by ∧
    (∀ stored : BlockDataStorable α, (BlockData.init stored).definition_loaded = false) ∧
    (∀ v, BlockData.to_storable { b with definition_loaded := v } = b.to_storable) :=
  ⟨rfl, rfl, rfl, rfl, rfl, rfl, rfl, rfl, rfl, fun _ => rfl, fun _ => rfl⟩

end SplitMongo

namespace GradedContent

open SplitMongo (BlockKey)

/-- C7: the filter is a depth-first pre-order traversal: a node satisfying
the predicate yields the singleton of that node with no descent into its
subtree; a non-matching node recurses into all (resolved) children and
concatenates their results in child order; a non-matching leaf yields the
empty list.  On the concrete tree where a graded chapter contains a graded
section containing an ungraded problem, filtering for `graded == True`
returns only the chapter. -/
theorem filter_descendants_preorder (p : MBlock → Bool)
    (blocks : List (BlockKey × MBlock)) (node : MBlock) (fuel : Nat) :
    (p node = true → filter_children p blocks (fuel + 1) node = some [node]) ∧
    (p node = false → node.children = [] →
      filter_children p blocks (fuel + 1) node = some []) ∧
    (∀ resolved, p node = false → node.children ≠ [] →
      node.children.mapM (lookupBlock blocks) = some resolved →
      filter_children p blocks (fuel + 1) node =
        (resolved.mapM (filter_children p blocks fuel)).map List.join) ∧
    filter_children (fun b => b.graded) demoBlocks 10 demoRoot =
      some [demoChapter] := by
  refine ⟨fun hp => ?_, fun hp hch => ?_, fun resolved hp hch hres => ?_, by rfl⟩
  · simp [filter_children, hp]
  · simp [filter_children, hp, hch]
  · rw [filter_children]
    simp only [hp, if_false, Bool.false_eq_true]
    rw [if_neg (by simpa using hch), hres]

/-- Witness for C7: on the scenario tree, the graded chapter itself is
returned as a singleton without descending, and the ungraded problem (a
non-matching leaf) yields the empty list. -/
theorem filter_descendants_preorder_witness :
    filter_children (fun b => b.graded) demoBlocks 10 demoChapter =
      some [demoChapter] ∧
    filter_children (fun b => b.graded) demoBlocks 10 demoProblem = some [] := by
  constructor
  · exact (filter_descendants_preorder (fun b => b.graded) demoBlocks
      demoChapter 9).1 (by rfl)
  · exact (filter_descendants_preorder (fun b => b.graded) demoBlocks
      demoProblem 9).2.1 (by rfl) (by rfl)

end GradedContent

namespace FetchTree

mutual
/-- Structural induction over `FNode` with a membership hypothesis for
the children list. -/
theorem fnode_ind (P : FNode → Prop)
    (h : ∀ hc kids attr mks, (∀ k ∈ kids, P k) → P (.mk hc kids attr mks)) :
    ∀ n, P n
  | .mk hc kids attr mks =>
    h hc kids attr mks (fun k hk => fnode_ind_mem P h kids k hk)
/-- Membership form of `fnode_ind` for lists. -/
theorem fnode_ind_mem (P : FNode → Prop)
    (h : ∀ hc kids attr mks, (∀ k ∈ kids, P k) → P (.mk hc kids attr mks)) :
    ∀ (l : List FNode) (k : FNode), k ∈ l → P k
  | n :: rest, k, hk =>
    (List.mem_cons.mp hk).elim (fun he => he ▸ fnode_ind P h n)
      (fun hm => fnode_ind_mem P h rest k hm)
end

/-- `pristineList` is `pristine` for every member. -/
theorem pristineList_iff (l : List FNode) :
    pristineList l = true ↔ ∀ k ∈ l, pristine k = true := by
  induction l with
  | nil => simp [pristineList]
  | cons n rest ih => simp [pristineList, ih]

/-- On a pristine tree, fetching with a non-negative depth budget `d`
materializes exactly `min d (height)` levels. -/
theorem fetch_levels_nonneg :
    ∀ n, pristine n = true → ∀ d : Int, 0 ≤ d →
      matHeight (fetch_children n d) = min d.toNat (height n) := by
  refine fnode_ind _ (fun hc kids attr mks ihk => ?_)
  intro hpr d hd
  have hattr : attr = .orig := by
    rcases attr <;> simp_all [pristine]
  have hkidspr : ∀ k ∈ kids, pristine k = true := by
    rw [← pristineList_iff]
    simp_all [pristine]
  by_cases hhc : hc = false
  · simp [fetch_children, hhc, matHeight, height, hattr]
  · by_cases hd0 : d = 0
    · simp [fetch_children, hhc, hd0, matHeight, height]
    · have hd1 : 1 ≤ d := by omega
      have key : ∀ (l : List FNode), (∀ k ∈ l, pristine k = true) →
          (∀ k ∈ l, pristine k = true → ∀ d' : Int, 0 ≤ d' →
            matHeight (fetch_children k d') = min d'.toNat (height k)) →
          matHeightList (fetch_list l (d - 1)) = min (d - 1).toNat (heightList l) := by
        intro l
        induction l with
        | nil => simp [fetch_list, matHeightList, heightList]
        | cons x xs ihx =>
          intro h1 h2
          have hx := h2 x (by simp) (h1 x (by simp)) (d - 1) (by omega)
          have hxs := ihx (fun k hk => h1 k (by simp [hk]))
            (fun k hk hpk d' hd' => h2 k (by simp [hk]) hpk d' hd')
          simp only [fetch_list, matHeightList, heightList, hx, hxs]
          exact (min_max_distrib_left ..).symm
      have hkey := key kids hkidspr (fun k hk hpk d' hd' => ihk k hk hpk d' hd')
      have hmat : matHeight (fetch_children (FNode.mk hc kids attr mks) d) =
          1 + matHeightList (fetch_list kids (d - 1)) := by
        simp [fetch_children, hhc, hd0, matHeight]
      have hh : height (FNode.mk hc kids attr mks) = 1 + heightList kids := by
        simp [height, hhc]
      rw [hmat, hh, hkey]
      omega

/-- On a pristine tree, fetching with a negative depth (the `-1`
unbounded sentinel) materializes all the way to the leaves. -/
theorem fetch_levels_neg :
    ∀ n, pristine n = true → ∀ d : Int, d < 0 →
      matHeight (fetch_children n d) = height n := by
  refine fnode_ind _ (fun hc kids attr mks ihk => ?_)
  intro hpr d hd
  have hattr : attr = .orig := by
    rcases attr <;> simp_all [pristine]
  have hkidspr : ∀ k ∈ kids, pristine k = true := by
    rw [← pristineList_iff]
    simp_all [pristine]
  by_cases hhc : hc = false
  · simp [fetch_children, hhc, matHeight, height, hattr]
  · have key : ∀ (l : List FNode), (∀ k ∈ l, pristine k = true) →
        (∀ k ∈ l, pristine k = true → ∀ d' : Int, d' < 0 →
          matHeight (fetch_children k d') = height k) →
        matHeightList (fetch_list l (d - 1)) = heightList l := by
      intro l
      induction l with
      | nil => simp [fetch_list, matHeightList, heightList]
      | cons x xs ihx =>
        intro h1 h2
        have hx := h2 x (by simp) (h1 x (by simp)) (d - 1) (by omega)
        have hxs := ihx (fun k hk => h1 k (by simp [hk]))
          (fun k hk hpk d' hd' => h2 k (by simp [hk]) hpk d' hd')
        simp only [fetch_list, matHeightList, heightList, hx, hxs]
    have hkey := key kids hkidspr (fun k hk hpk d' hd' => ihk k hk hpk d' hd')
    have hd0 : d ≠ 0 := by omega
    have hmat : matHeight (fetch_children (FNode.mk hc kids attr mks) d) =
        1 + matHeightList (fetch_list kids (d - 1)) := by
      simp [fetch_children, hhc, hd0, matHeight]
    have hh : height (FNode.mk hc kids attr mks) = 1 + heightList kids := by
      simp [height, hhc]
    rw [hmat, hh, hkey]

/-- Fetching twice with the same depth gives the same result as once:
the recomputation only depends on `has_children` and `get_children()`,
which fetching never changes. -/
theorem fetch_idem (n : FNode) (d : Int) :
    fetch_children (fetch_children n d) d = fetch_children n d := by
  cases n with
  | mk hc kids attr mks =>
    by_cases hhc : hc = false
    · simp [fetch_children, hhc]
    · by_cases hd : d = 0 <;> simp [fetch_children, hhc, hd]

/-- C5: on a pristine tree, `fetch_children` at depth 0 attaches no
children even when the node has them (nothing is materialized, and the
cutoff is marked by the `None` children attribute, distinguishable from a
childless node, which is returned unchanged); a non-negative budget `N`
materializes exactly `min N (tree height)` levels; the negative sentinel
recurses until the leaves; and fetching is idempotent on the same
input. -/
theorem fetch_children_depth_semantics (n : FNode) (h : pristine n = true) :
    matHeight (fetch_children n 0) = 0 ∧
    (n.hasChildren = true → (fetch_children n 0).attr = .nullv) ∧
    (n.hasChildren = false → fetch_children n 0 = n) ∧
    (∀ N : Nat, matHeight (fetch_children n (N : Int)) = min N (height n)) ∧
    (∀ d : Int, d < 0 → matHeight (fetch_children n d) = height n) ∧
    (∀ d : Int, fetch_children (fetch_children n d) d = fetch_children n d) := by
  refine ⟨?_, ?_, ?_, ?_, fun d hd => fetch_levels_neg n h d hd,
    fun d => fetch_idem n d⟩
  · simpa using fetch_levels_nonneg n h 0 le_rfl
  · intro hhc
    cases n with
    | mk hc kids attr mks =>
      have : hc = true := hhc
      subst this
      simp [fetch_children, FNode.attr]
  · intro hhc
    cases n with
    | mk hc kids attr mks =>
      have : hc = false := hhc
      subst this
      simp [fetch_children]
  · intro N
    simpa using fetch_levels_nonneg n h (N : Int) (by omega)

/-- Witness for C5 on a concrete pristine height-2 tree: depth 0
materializes nothing and marks the cutoff `None`; depth 1 materializes one
level; depth 5 and the `-1` sentinel materialize both levels; fetching is
idempotent. -/
theorem fetch_children_depth_semantics_witness :
    matHeight (fetch_children demoTree 0) = 0 ∧
    (fetch_children demoTree 0).attr = .nullv ∧
    matHeight (fetch_children demoTree 1) = 1 ∧
    matHeight (fetch_children demoTree 5) = 2 ∧
    matHeight (fetch_children demoTree (-1)) = 2 ∧
    fetch_children (fetch_children demoTree (-1)) (-1) =
      fetch_children demoTree (-1) := by
  have h := fetch_children_depth_semantics demoTree (by rfl)
  refine ⟨h.1, h.2.1 (by rfl), ?_, ?_, ?_, h.2.2.2.2.2 (-1)⟩
  · have := h.2.2.2.1 1
    rw [show ((1 : Nat) : Int) = (1 : Int) by rfl] at this
    rw [this]
    rfl
  · have := h.2.2.2.1 5
    rw [show ((5 : Nat) : Int) = (5 : Int) by rfl] at this
    rw [this]
    rfl
  · rw [h.2.2.2.2.1 (-1) (by omega)]
    rfl

end FetchTree

namespace FetchStore

/-- Counterexample for C6: `fetch_children` does not return a copy and
does mutate the input node.  On the concrete heap `exStore`, fetching
node 0 at depth 0 returns the very address it was given, and the object
stored at that address has changed (its `children` attribute was
overwritten with `None`). -/
theorem fetch_children_mutates_in_place :
    (fetch_children_store 5 exStore 0 0).2 = 0 ∧
    (fetch_children_store 5 exStore 0 0).1 0 ≠ exStore 0 ∧
    (fetch_children_store 5 exStore 0 0).1 0 =
      { hasChildren := true, kids := [1], children := .nullv } := by
  refine ⟨rfl, ?_, rfl⟩
  decide

/-- C6 (amended): `fetch_children` returns the same node object it was
given — not a copy — and mutates in place only `children` attributes:
every object's `has_children` flag and `get_children()` list are
unchanged by a call, so a repeated call traverses the same structure. -/
theorem fetch_store_same_object_and_frame :
    ∀ (fuel : Nat) (s : Store) (a : Nat) (d : Int),
      (fetch_children_store fuel s a d).2 = a ∧
      ∀ b, ((fetch_children_store fuel s a d).1 b).hasChildren = (s b).hasChildren ∧
           ((fetch_children_store fuel s a d).1 b).kids = (s b).kids := by
  intro fuel
  induction fuel with
  | zero => exact fun s a d => ⟨rfl, fun b => ⟨rfl, rfl⟩⟩
  | succ f ih =>
    intro s a d
    have aux : ∀ (l : List Nat) (s0 : Store) (accl : List Nat) (b : Nat),
        (((l.foldl (fun acc k =>
            let r := fetch_children_store f acc.1 k (d - 1)
            (r.1, acc.2 ++ [r.2])) (s0, accl)).1 b).hasChildren =
          (s0 b).hasChildren) ∧
        (((l.foldl (fun acc k =>
            let r := fetch_children_store f acc.1 k (d - 1)
            (r.1, acc.2 ++ [r.2])) (s0, accl)).1 b).kids = (s0 b).kids) := by
      intro l
      induction l with
      | nil => exact fun s0 accl b => ⟨rfl, rfl⟩
      | cons k rest ihl =>
        intro s0 accl b
        simp only [List.foldl_cons]
        have hstep := (ih s0 k (d - 1)).2 b
        have hrest := ihl (fetch_children_store f s0 k (d - 1)).1
          (accl ++ [(fetch_children_store f s0 k (d - 1)).2]) b
        exact ⟨hrest.1.trans hstep.1, hrest.2.trans hstep.2⟩
    by_cases hhc : (s a).hasChildren = false
    · simp [fetch_children_store, hhc]
    · by_cases hd : d = 0
      · refine ⟨by simp [fetch_children_store, hhc, hd], fun b => ?_⟩
        simp only [fetch_children_store, hhc, hd]
        by_cases hba : b = a <;> simp [store_set, hba, hhc, hd]
      · refine ⟨by simp [fetch_children_store, hhc, hd], fun b => ?_⟩
        simp only [fetch_children_store, hhc, hd]
        have haux := aux (s a).kids s [] b
        by_cases hba : b = a
        · subst hba
          simp [store_set, hhc, hd, haux.1, haux.2]
        · simp [store_set, hba, hhc, hd, haux.1, haux.2]

end FetchStore

